import Mathlib

/-!
Verification of `electron-puppeteer-cloner` (a web-page cloning tool).

Shallow embedding of the components the claims concern:
  * `src/utils/url-classifier.js`  — URL classification (API request vs static file)
  * `src/utils/static-analyzer.js` — static reference extraction / filtering
  * `src/renderer/renderer.js`     — clone worker: cookie mapping, asset
    persistence, progress counters, HTML/CSS URL rewriting

Modelling conventions:
  * JavaScript strings are Lean `String`s; the few string operations the
    code uses (`includes`, `startsWith`, `split`/`join`, `replace` with a
    global regex) are defined from scratch on `List Char` so their
    behaviour is fully explicit.
  * The accumulated classifier scores are multiples of 0.1 in the source
    (0.8, 0.6, ...); they are modelled as naturals counted in tenths
    (8, 6, ...), so `score = 27` means a source score of 2.7.
  * `new URL(...)` (WHATWG) and node's legacy `url.parse` are modelled by
    `parseURL` below: scheme `://` host `/` path `?` query, host
    lower-cased, failures return `none` (the code always wraps the
    constructor in try/catch).  `data:` URLs always parse, as in the
    platform.
  * Fallible code returns `Except`/`Option`; JS `undefined` is `Option.none`.
-/

/-! ## List-of-characters string primitives (JS semantics) -/

/-- Test whether `u` is a prefix of `s` (JS `String.prototype.startsWith`). -/
def isPrefixL : List Char → List Char → Bool
  | [], _ => true
  | _ :: _, [] => false
  | a :: u, b :: s => a = b && isPrefixL u s

/-- Test whether `u` occurs as a contiguous substring of `s`
(JS `String.prototype.includes`). -/
def containsSubL (s u : List Char) : Bool :=
  match s with
  | [] => u.isEmpty
  | _ :: t => isPrefixL u s || containsSubL t u

/-- JS `s.split(u)` for a nonempty separator `u`: leftmost non-overlapping
matches of `u` are removed and the in-between parts returned in order.
(For `u = []` we return `[s]`; the code never splits on the empty string.) -/
def splitOnL (u : List Char) (s : List Char) : List (List Char) :=
  if h : u = [] then [s]
  else
    match s with
    | [] => [[]]
    | c :: t =>
      if hp : isPrefixL u (c :: t) then
        [] :: splitOnL u ((c :: t).drop u.length)
      else
        match splitOnL u t with
        | [] => [[c]]
        | p :: ps => (c :: p) :: ps
termination_by s.length
decreasing_by
  · have hu : 1 ≤ u.length := by
      cases u with
      | nil => exact absurd rfl h
      | cons a u' => simp
    simp only [List.length_drop, List.length_cons]
    omega
  · simp only [List.length_cons]
    omega

/-- Join a list of parts with separator/replacement `r` (JS `parts.join(r)`). -/
def joinWithL (r : List Char) : List (List Char) → List Char
  | [] => []
  | [p] => p
  | p :: q :: ps => p ++ r ++ joinWithL r (q :: ps)

/-- JS `s.split(u).join(r)`: replace every occurrence of `u` in `s` by `r`. -/
def splitJoinL (s u r : List Char) : List Char :=
  joinWithL r (splitOnL u s)

/-- JS `s.includes(u)` on `String`s. -/
def jsIncludes (s u : String) : Bool := containsSubL s.toList u.toList

/-- JS `s.startsWith(u)` on `String`s. -/
def jsStartsWith (s u : String) : Bool := isPrefixL u.toList s.toList

/-- JS `s.endsWith(u)` on `String`s. -/
def jsEndsWith (s u : String) : Bool := isPrefixL u.toList.reverse s.toList.reverse

/-- JS `s.split(u).join(r)` on `String`s. -/
def splitJoinStr (s u r : String) : String :=
  ⟨splitJoinL s.toList u.toList r.toList⟩

/-- ASCII lower-casing, `String.prototype.toLowerCase` on the inputs used here. -/
def jsToLower (s : String) : String := ⟨s.toList.map Char.toLower⟩

/-- First binding of `k` in an association list (JS `Map.get` / object lookup). -/
def lookupA {β : Type} (m : List (String × β)) (k : String) : Option β :=
  match m with
  | [] => none
  | (k', v) :: t => if k' = k then some v else lookupA t k

/-- Overwrite/insert a binding (JS `Map.set` / object property assignment);
the new binding shadows any previous one under `lookupA`. -/
def setA {β : Type} (m : List (String × β)) (k : String) (v : β) :
    List (String × β) :=
  (k, v) :: m

/-! ## URL model

A simplified WHATWG `new URL(...)` sufficient for this repository: scheme,
lower-cased hostname, pathname and query string.  Parsing fails (`none`)
exactly where the platform constructor throws on the inputs the code feeds
it; `data:` URLs always parse, as in the platform. -/

/-- Components of a parsed URL (`new URL(s)`). -/
structure URLRec where
  scheme : String
  hostname : String
  pathname : String
  search : String
deriving Repr, DecidableEq

/-- Characters allowed in a URL scheme after the first (alphabetic) one. -/
def isSchemeChar (c : Char) : Bool :=
  c.isAlpha || c.isDigit || c = '+' || c = '-' || c = '.'

/-- Split a path-and-query character list into pathname and search parts. -/
def splitPathQuery (pq : List Char) : List Char × List Char :=
  let p := pq.takeWhile (fun c => decide (c ≠ '?' ∧ c ≠ '#'))
  let afterP := pq.drop p.length
  let q :=
    if isPrefixL ['?'] afterP then
      (afterP.drop 1).takeWhile (fun c => decide (c ≠ '#'))
    else []
  (p, q)

/-- Model of `new URL(s)`: `none` where the constructor throws. -/
def parseURL (s : String) : Option URLRec :=
  if jsStartsWith s "data:" then
    some ⟨"data", "", ⟨s.toList.drop 5⟩, ""⟩
  else
    let cs := s.toList
    let scheme := cs.takeWhile (fun c => decide (c ≠ ':'))
    let rest := cs.drop scheme.length
    if scheme ≠ [] ∧ (scheme.head?.getD ' ').isAlpha ∧ scheme.all isSchemeChar
        ∧ isPrefixL "://".toList rest then
      let afterScheme := rest.drop 3
      let authority :=
        afterScheme.takeWhile (fun c => decide (c ≠ '/' ∧ c ≠ '?' ∧ c ≠ '#'))
      let hostPart := authority.takeWhile (fun c => decide (c ≠ ':'))
      if hostPart ≠ [] ∧ hostPart.all (fun c => decide (c ≠ ' ')) then
        let tail1 := afterScheme.drop authority.length
        let (p, q) := splitPathQuery tail1
        let pathname := if isPrefixL ['/'] tail1 then p else ['/']
        some ⟨⟨scheme.map Char.toLower⟩, ⟨hostPart.map Char.toLower⟩,
              ⟨pathname⟩, ⟨q⟩⟩
      else none
    else none

/-- Serialization of a parsed URL (`url.toString()`), for the simple URLs
this repository handles. -/
def renderURL (u : URLRec) : String :=
  if u.scheme = "data" then "data:" ++ u.pathname
  else
    u.scheme ++ "://" ++ u.hostname ++ u.pathname
      ++ (if u.search = "" then "" else "?" ++ u.search)

/-- Model of `new URL(v, base)`: absolute `v` wins; otherwise
protocol-relative, root-relative and path-relative references are resolved
against the parsed base.  Dot-segment normalization is not modelled; no
claim depends on it. -/
def resolveAgainst (base v : String) : Option URLRec :=
  match parseURL v with
  | some u => some u
  | none =>
    match parseURL base with
    | none => none
    | some b =>
      if jsStartsWith v "//" then parseURL (b.scheme ++ ":" ++ v)
      else
        let cs := v.toList
        let (p, q) := splitPathQuery cs
        if isPrefixL ['/'] cs then
          some { b with pathname := ⟨p⟩, search := ⟨q⟩ }
        else
          let bdir :=
            (b.pathname.toList.reverse.dropWhile (fun c => decide (c ≠ '/'))).reverse
          some { b with pathname := ⟨bdir ++ p⟩, search := ⟨q⟩ }

/-! ## `src/utils/url-classifier.js` -/

/-- Static file extensions (`STATIC_FILE_EXTENSIONS`). -/
def STATIC_FILE_EXTENSIONS : List String :=
  [".html", ".htm", ".css", ".js", ".json", ".xml",
   ".png", ".jpg", ".jpeg", ".gif", ".svg", ".webp", ".ico", ".bmp",
   ".woff", ".woff2", ".ttf", ".eot", ".otf",
   ".pdf", ".txt", ".csv", ".zip", ".rar", ".tar", ".gz",
   ".mp3", ".mp4", ".avi", ".mov", ".wav", ".ogg",
   ".doc", ".docx", ".xls", ".xlsx", ".ppt", ".pptx"]

/-- API endpoint patterns (`API_PATTERNS`). -/
def API_PATTERNS : List String :=
  ["/api/", "/v1/", "/v2/", "/v3/", "/v4/", "/v5/",
   "/rest/", "/graphql/", "/rpc/", "/service/",
   "/endpoint/", "/controller/", "/handler/",
   "/auth/", "/login/", "/logout/", "/register/",
   "/user/", "/users/", "/admin/", "/dashboard/",
   "/data/", "/query/", "/search/", "/filter/",
   "/upload/", "/download/", "/export/", "/import/"]

/-- Alphanumeric character class `[a-zA-Z0-9]` of the extension regex. -/
def charIsAlnum (c : Char) : Bool := c.isAlpha || c.isDigit

/-- Leftmost match of `\.([a-zA-Z0-9]+)(?:\?|$)` with the capture
lower-cased and a dot prepended (`URLClassifier.getFileExtension`). -/
def extFromL : List Char → Option String
  | [] => none
  | c :: rest =>
    if c = '.' then
      let run := rest.takeWhile charIsAlnum
      let after := rest.drop run.length
      if run ≠ [] ∧ (after = [] ∨ after.head? = some '?') then
        some ⟨'.' :: run.map Char.toLower⟩
      else extFromL rest
    else extFromL rest

/-- Model of `URLClassifier.getFileExtension`. -/
def getFileExtension (pathname : String) : Option String :=
  extFromL pathname.toList

/-- Extension-to-file-type table of `URLClassifier.getFileTypeFromExtension`. -/
def extensionTypeMap : List (String × String) :=
  [(".html", "html"), (".htm", "html"),
   (".css", "css"),
   (".js", "javascript"), (".mjs", "javascript"),
   (".json", "json"),
   (".png", "image"), (".jpg", "image"), (".jpeg", "image"),
   (".gif", "image"), (".svg", "image"), (".webp", "image"),
   (".woff", "font"), (".woff2", "font"), (".ttf", "font"), (".eot", "font"),
   (".pdf", "document"), (".txt", "text"), (".csv", "data")]

/-- Model of `URLClassifier.getFileTypeFromExtension`. -/
def getFileTypeFromExtension (extension : String) : String :=
  (lookupA extensionTypeMap extension).getD "unknown"

/-- CDN hostname fragments of `URLClassifier.isCdnUrl`. -/
def cdnDomains : List String :=
  ["cdn.", "cdnjs.", "unpkg.", "jsdelivr.", "googleapis.", "gstatic.",
   "cloudflare.", "bootstrapcdn.", "fontawesome.", "jquery.",
   "ajax.googleapis.", "fonts.googleapis.", "fonts.gstatic."]

/-- Model of `URLClassifier.isCdnUrl`. -/
def isCdnUrl (url : String) : Bool :=
  match parseURL url with
  | some u => cdnDomains.any (fun d => jsIncludes u.hostname d)
  | none => false

/-- Last path segment: the run of non-`/` characters ending the string. -/
def lastSegAfterSlash (cs : List Char) : List Char :=
  (cs.reverse.takeWhile (fun c => decide (c ≠ '/'))).reverse

/-- REST-like id test: `/\/(\d+)$/.test(p) || /\/([a-f0-9-]{8,})$/.test(p)`. -/
def hasRestIdPattern (pathname : String) : Bool :=
  let cs := pathname.toList
  let seg := lastSegAfterSlash cs
  decide ('/' ∈ cs) &&
    ((decide (seg ≠ []) && seg.all Char.isDigit) ||
     (decide (seg.length ≥ 8) &&
      seg.all (fun c => c.isDigit || decide (c ∈ ['a', 'b', 'c', 'd', 'e', 'f', '-']))))

/-- Match of `v\d+\/|version\/|\d+\.\d+\.\d+\/` directly after a slash. -/
def matchVersionAfterSlash (cs : List Char) : Bool :=
  (match cs with
   | 'v' :: t =>
     let ds := t.takeWhile Char.isDigit
     decide (ds ≠ []) && decide ((t.drop ds.length).head? = some '/')
   | _ => false)
  || isPrefixL "version/".toList cs
  || (let d1 := cs.takeWhile Char.isDigit
      decide (d1 ≠ []) &&
        (match cs.drop d1.length with
         | '.' :: t2 =>
           let d2 := t2.takeWhile Char.isDigit
           decide (d2 ≠ []) &&
             (match t2.drop d2.length with
              | '.' :: t3 =>
                let d3 := t3.takeWhile Char.isDigit
                decide (d3 ≠ []) && decide ((t3.drop d3.length).head? = some '/')
              | _ => false)
         | _ => false))

/-- Versioned-path test `/\/(v\d+\/|version\/|\d+\.\d+\.\d+\/)/.test(p)`. -/
def hasVersionedPath : List Char → Bool
  | [] => false
  | '/' :: rest => matchVersionAfterSlash rest || hasVersionedPath rest
  | _ :: rest => hasVersionedPath rest

/-- Result of `URLClassifier.calculateApiScore`; scores in tenths. -/
structure ApiScoreResult where
  score : Nat
  patterns : List String
  reason : String
deriving Repr, DecidableEq

/-- Result of `URLClassifier.calculateStaticScore`; scores in tenths. -/
structure StaticScoreResult where
  score : Nat
  patterns : List String
  reason : String
  fileType : String
  extension : String
deriving Repr, DecidableEq

/-- Model of `URLClassifier.calculateApiScore` (the unused `context`
parameter is dropped).  Score increments 0.8/0.6/0.3/0.7/0.5/0.4 are the
naturals 8/6/3/7/5/4 (tenths). -/
def calculateApiScore (pathname searchParams method : String) : ApiScoreResult :=
  let hits := API_PATTERNS.filter (fun p => jsIncludes pathname p)
  let s1 := 8 * hits.length
  let p1 := hits.map (fun p => "API pattern: " ++ p)
  let methHit := ["POST", "PUT", "PATCH", "DELETE"].contains method
  let s2 := if methHit then s1 + 6 else s1
  let p2 := if methHit then p1 ++ ["HTTP method: " ++ method] else p1
  let qHit := !searchParams.isEmpty
  let s3 := if qHit then s2 + 3 else s2
  let p3 := if qHit then p2 ++ ["Has query parameters"] else p2
  let jsonHit := jsIncludes pathname ".json" || jsIncludes pathname "format=json"
  let s4 := if jsonHit then s3 + 7 else s3
  let p4 := if jsonHit then p3 ++ ["JSON format indicator"] else p3
  let restHit := hasRestIdPattern pathname
  let s5 := if restHit then s4 + 5 else s4
  let p5 := if restHit then p4 ++ ["REST-like ID pattern"] else p4
  let dynHit := jsIncludes pathname "\x7b" || jsIncludes pathname "[" || jsIncludes pathname "*"
  let s6 := if dynHit then s5 + 4 else s5
  let p6 := if dynHit then p5 ++ ["Dynamic segment pattern"] else p5
  let reason := if s6 > 0 then "API indicators: " ++ String.intercalate ", " p6 else ""
  ⟨s6, p6, reason⟩

/-- Model of `URLClassifier.calculateStaticScore` (the unused `context`
parameter is dropped).  Score increments 0.9/0.7/0.8/0.6/0.5 are the
naturals 9/7/8/6/5 (tenths). -/
def calculateStaticScore (pathname url : String) : StaticScoreResult :=
  let extOpt := getFileExtension pathname
  let extension := extOpt.getD ""
  let extHit := match extOpt with
    | some e => STATIC_FILE_EXTENSIONS.contains e
    | none => false
  let s1 := if extHit then 9 else 0
  let p1 := if extHit then ["Static file extension: " ++ extension] else []
  let fileType := if extHit then getFileTypeFromExtension extension else "unknown"
  let dirHit := jsIncludes pathname "/assets/" || jsIncludes pathname "/static/"
    || jsIncludes pathname "/public/" || jsIncludes pathname "/resources/"
  let s2 := if dirHit then s1 + 7 else s1
  let p2 := if dirHit then p1 ++ ["Static directory pattern"] else p1
  let cdnHit := isCdnUrl url
  let s3 := if cdnHit then s2 + 8 else s2
  let p3 := if cdnHit then p2 ++ ["CDN URL pattern"] else p2
  let verHit := hasVersionedPath pathname.toList
  let s4 := if verHit then s3 + 6 else s3
  let p4 := if verHit then p3 ++ ["Versioned static file"] else p3
  let minHit := jsIncludes pathname ".min." || jsIncludes pathname ".bundle."
  let s5 := if minHit then s4 + 5 else s4
  let p5 := if minHit then p4 ++ ["Minified file pattern"] else p4
  let reason := if s5 > 0 then "Static file indicators: " ++ String.intercalate ", " p5 else ""
  ⟨s5, p5, reason, fileType, extension⟩

/-- Classification result; `confidence` is the winning score in tenths.
The source's `details` object is flattened into the last four fields
(`fileType`/`extension` are populated only on the static branch, as in the
source). -/
structure Classification where
  type : String
  confidence : Nat
  reason : String
  url : String
  method : String
  apiPatterns : List String
  staticPatterns : List String
  fileType : Option String
  extension : Option String
deriving Repr, DecidableEq

/-- Model of `URLClassifier.performClassification`. -/
def performClassification (url pathname searchParams method : String) :
    Classification :=
  let apiScore := calculateApiScore pathname searchParams method
  let staticScore := calculateStaticScore pathname url
  if apiScore.score > staticScore.score then
    ⟨"api_request", apiScore.score, apiScore.reason, url, method,
     apiScore.patterns, staticScore.patterns, none, none⟩
  else if staticScore.score > 0 then
    ⟨"static_file", staticScore.score, staticScore.reason, url, method,
     apiScore.patterns, staticScore.patterns,
     some staticScore.fileType, some staticScore.extension⟩
  else
    ⟨"unknown", 0, "No clear classification pattern", url, method,
     apiScore.patterns, staticScore.patterns, none, none⟩

/-- Catch-branch result of `URLClassifier.classifyUrl` for a URL the
constructor rejects (the source result carries no `details`; modelled with
empty pattern lists). -/
def invalidClassification (url method : String) : Classification :=
  ⟨"unknown", 0, "Invalid URL format", url, method, [], [], none, none⟩

/-- Model of `URLClassifier.classifyUrl`: cache lookup under
`method ++ "-" ++ url`, then parse, classify and cache.  The query is used
only for its emptiness, so the raw query stands in for
`searchParams.toString()`. -/
def classifyUrl (cache : List (String × Classification)) (url method : String) :
    Classification × List (String × Classification) :=
  let cacheKey := method ++ "-" ++ url
  match lookupA cache cacheKey with
  | some c => (c, cache)
  | none =>
    match parseURL url with
    | none => (invalidClassification url method, cache)
    | some u =>
      let pathname := jsToLower u.pathname
      let c := performClassification url pathname u.search method
      (c, setA cache cacheKey c)

/-- Instance state of `URLClassifier`.  The constructor assigns only
`classificationCache`; the `processedUrls` field read by `clearCache` and
`getCacheStats` is never assigned anywhere in the class, so it is JS
`undefined`, modelled as `none`. -/
structure URLClassifierState where
  classificationCache : List (String × Classification)
  processedUrls : Option (List String)
deriving Repr

/-- Model of `new URLClassifier()`. -/
def URLClassifier.new : URLClassifierState := ⟨[], none⟩

/-- Model of `classifyUrl` acting on an instance. -/
def classifyUrlSt (st : URLClassifierState) (url method : String) :
    Classification × URLClassifierState :=
  let (c, cache) := classifyUrl st.classificationCache url method
  (c, { st with classificationCache := cache })

/-- Model of `URLClassifier.clearCache`:
`this.classificationCache.clear()` empties the cache, then
`this.processedUrls.clear()` throws a `TypeError` whenever `processedUrls`
is `undefined`. -/
def clearCache (st : URLClassifierState) : Except String URLClassifierState :=
  let st1 : URLClassifierState := { st with classificationCache := [] }
  match st1.processedUrls with
  | none => .error "TypeError: this.processedUrls is undefined"
  | some _ => .ok { st1 with processedUrls := some [] }

/-- Replay a sequence of `classifyUrl` calls on an instance. -/
def replayClassify (st : URLClassifierState) (calls : List (String × String)) :
    URLClassifierState :=
  calls.foldl (fun s p => (classifyUrlSt s p.1 p.2).2) st

/-! ## Split/join lemmas (JS `split(u).join(r)` replaces exactly the occurrences) -/

theorem isPrefixL_iff (u : List Char) : ∀ s, isPrefixL u s = true ↔ ∃ t, s = u ++ t := by
  induction u with
  | nil => intro s; simp [isPrefixL]
  | cons a u ih =>
    intro s
    cases s with
    | nil => simp [isPrefixL]
    | cons b t =>
      simp only [isPrefixL, Bool.and_eq_true, decide_eq_true_eq, ih, List.cons_append,
        List.cons.injEq]
      constructor
      · rintro ⟨rfl, w, rfl⟩; exact ⟨w, rfl, rfl⟩
      · rintro ⟨w, rfl, rfl⟩; exact ⟨rfl, w, rfl⟩

theorem splitOnL_nil_right (u : List Char) (hu : u ≠ []) : splitOnL u [] = [[]] := by
  rw [splitOnL.eq_def, dif_neg hu]

theorem splitOnL_cons_pos (u : List Char) (c : Char) (t : List Char) (hu : u ≠ [])
    (hp : isPrefixL u (c :: t) = true) :
    splitOnL u (c :: t) = [] :: splitOnL u ((c :: t).drop u.length) := by
  rw [splitOnL.eq_def, dif_neg hu]
  simp only [hp]
  rfl

theorem splitOnL_cons_neg (u : List Char) (c : Char) (t : List Char) (hu : u ≠ [])
    (hp : ¬ isPrefixL u (c :: t) = true) :
    splitOnL u (c :: t) =
      (match splitOnL u t with
       | [] => [[c]]
       | p :: ps => (c :: p) :: ps) := by
  rw [splitOnL.eq_def, dif_neg hu]
  simp only [hp]
  rfl

theorem splitOnL_ne_nil (u s : List Char) : splitOnL u s ≠ [] := by
  induction s using splitOnL.induct u with
  | case1 s h => rw [splitOnL.eq_def, dif_pos h]; simp
  | case2 h => rw [splitOnL_nil_right u h]; simp
  | case3 h c t hp ih =>
    rw [splitOnL_cons_pos u c t h hp]; simp
  | case4 h c t hp heq =>
    rw [splitOnL_cons_neg u c t h hp, heq]; simp
  | case5 h c t hp p ps heq ih =>
    rw [splitOnL_cons_neg u c t h hp, heq]; simp

theorem splitOnL_head_prefix (u s : List Char) :
    ∃ p ps t2, splitOnL u s = p :: ps ∧ s = p ++ t2 := by
  induction s using splitOnL.induct u with
  | case1 s h => exact ⟨s, [], [], by rw [splitOnL.eq_def, dif_pos h], by simp⟩
  | case2 h => exact ⟨[], [], [], splitOnL_nil_right u h, rfl⟩
  | case3 h c t hp ih =>
    exact ⟨[], _, c :: t, splitOnL_cons_pos u c t h hp, rfl⟩
  | case4 h c t hp heq =>
    exact absurd heq (splitOnL_ne_nil u t)
  | case5 h c t hp p ps heq ih =>
    obtain ⟨p2, ps2, t2, heq2, ht⟩ := ih
    rw [heq] at heq2
    injection heq2 with h1 h2
    subst h1
    refine ⟨c :: p, ps, t2, ?_, ?_⟩
    · rw [splitOnL_cons_neg u c t h hp, heq]
    · simp [ht]

theorem joinWith_splitOn (u : List Char) (hu : u ≠ []) :
    ∀ s, joinWithL u (splitOnL u s) = s := by
  intro s
  induction s using splitOnL.induct u with
  | case1 s h => exact absurd h hu
  | case2 h => rw [splitOnL_nil_right u h]; rfl
  | case3 h c t hp ih =>
    rw [splitOnL_cons_pos u c t h hp]
    obtain ⟨p, ps, heq⟩ := List.exists_cons_of_ne_nil (splitOnL_ne_nil u ((c :: t).drop u.length))
    rw [heq]
    rw [heq] at ih
    show u ++ joinWithL u (p :: ps) = c :: t
    rw [ih]
    obtain ⟨w, hw⟩ := (isPrefixL_iff u (c :: t)).mp hp
    rw [hw, List.drop_left]

  | case4 h c t hp heq =>
    exact absurd heq (splitOnL_ne_nil u t)
  | case5 h c t hp p ps heq ih =>
    rw [splitOnL_cons_neg u c t h hp, heq]
    rw [heq] at ih
    cases ps with
    | nil =>
      show c :: p = c :: t
      have : p = t := ih
      rw [this]
    | cons q ps2 =>
      show (c :: p) ++ u ++ joinWithL u (q :: ps2) = c :: t
      have : p ++ u ++ joinWithL u (q :: ps2) = t := ih
      simp only [List.cons_append, List.append_assoc] at this ⊢
      rw [this]

theorem splitOn_parts_free (u : List Char) (hu : u ≠ []) :
    ∀ s, ∀ p ∈ splitOnL u s, containsSubL p u = false := by
  have hempty : containsSubL [] u = false := by
    cases u with
    | nil => exact absurd rfl hu
    | cons a u2 => rfl
  intro s
  induction s using splitOnL.induct u with
  | case1 s h => exact absurd h hu
  | case2 h =>
    rw [splitOnL_nil_right u h]
    intro p hmem
    simp only [List.mem_singleton] at hmem
    subst hmem
    exact hempty
  | case3 h c t hp ih =>
    rw [splitOnL_cons_pos u c t h hp]
    intro p hmem
    rcases List.mem_cons.mp hmem with h1 | h1
    · subst h1; exact hempty
    · exact ih p h1
  | case4 h c t hp heq =>
    exact absurd heq (splitOnL_ne_nil u t)
  | case5 h c t hp p ps heq ih =>
    rw [splitOnL_cons_neg u c t h hp, heq]
    intro x hmem
    rcases List.mem_cons.mp hmem with h1 | h1
    · subst h1
      show (isPrefixL u (c :: p) || containsSubL p u) = false
      have hfree : containsSubL p u = false := ih p (heq ▸ List.mem_cons_self p ps)
      have hnp : isPrefixL u (c :: p) = false := by
        by_contra hcon
        have hpre : isPrefixL u (c :: p) = true := by
          cases hb : isPrefixL u (c :: p) with
          | false => exact absurd hb hcon
          | true => rfl
        obtain ⟨w, hw⟩ := (isPrefixL_iff u (c :: p)).mp hpre
        obtain ⟨p2, ps2, t2, heq2, ht⟩ := splitOnL_head_prefix u t
        rw [heq] at heq2
        injection heq2 with e1 e2
        subst e1
        have : c :: t = u ++ (w ++ t2) := by
          rw [ht, ← List.append_assoc, ← hw]
          rfl
        exact hp ((isPrefixL_iff u (c :: t)).mpr ⟨w ++ t2, this⟩)
      rw [hfree, hnp]
      rfl
    · exact ih x (heq ▸ List.mem_cons_of_mem p h1)

/-! ## `src/utils/static-analyzer.js` -/

/-- CDN / external hostname fragments of `StaticAnalyzer.isValidStaticFile`. -/
def analyzerCdnDomains : List String :=
  ["cdn.", "cdnjs.", "unpkg.", "jsdelivr.", "googleapis.", "gstatic.",
   "cloudflare.", "bootstrapcdn.", "fontawesome.", "jquery.",
   "ajax.googleapis.", "fonts.googleapis.", "fonts.gstatic.",
   "mail.ru", "yandex.", "rambler.", "ya.ru", "google.", "facebook.",
   "twitter.", "instagram.", "linkedin.", "github.", "stackoverflow.",
   "amazonaws.", "azure.", "firebase.", "heroku.", "netlify.",
   "vercel.", "surge.", "github.io", "gitlab.io", "bitbucket.io"]

/-- Accepted extensions of `StaticAnalyzer.isValidStaticFile`. -/
def analyzerValidExtensions : List String :=
  [".css", ".js", ".png", ".jpg", ".jpeg", ".gif", ".svg", ".ico",
   ".woff", ".woff2", ".ttf", ".eot"]

/-- Model of node's `path.extname`: the final dot-suffix of the basename
(empty for dotfiles and extensionless names, a bare dot for names ending
in a dot). -/
def extnamePath (p : String) : String :=
  let base := lastSegAfterSlash p.toList
  let pre := base.reverse.takeWhile (fun c => decide (c ≠ '.'))
  if pre.length = base.length then ""
  else if pre.length + 1 = base.length then ""
  else ⟨'.' :: pre.reverse⟩

/-- Model of `StaticAnalyzer.resolveUrl`: `new URL(url, baseUrl).toString()`,
returning `url` unchanged when the constructor throws. -/
def resolveUrlJS (baseUrl url : String) : String :=
  match resolveAgainst baseUrl url with
  | some u => renderURL u
  | none => url

/-- Model of `StaticAnalyzer.isValidStaticFile`: same-origin check against
the base URL, CDN exclusion, extension whitelist; any parse failure is
caught and yields `false`. -/
def isValidStaticFile (baseUrl url : String) : Bool :=
  match parseURL url with
  | none => false
  | some uo =>
    if analyzerCdnDomains.any (fun d => jsIncludes uo.hostname d) then false
    else
      match parseURL baseUrl with
      | none => false
      | some b =>
        if uo.hostname = b.hostname then
          analyzerValidExtensions.contains (jsToLower (extnamePath uo.pathname))
        else false

/-- The scan rule a reference was extracted by (which regex of
`StaticAnalyzer.analyzeHtml` matched it). -/
inductive ScanKind where
  | css
  | js
  | image
  | bgImage
  | complexBg
  | genericUrl
  | favicon
deriving Repr, DecidableEq

/-- Type tag each scan rule attaches to its references (the `genericUrl`
rule refines this by extension when a reference is accepted). -/
def scanKindLabel : ScanKind → String
  | .css => "css"
  | .js => "js"
  | .image => "image"
  | .bgImage => "image"
  | .complexBg => "image"
  | .genericUrl => "resource"
  | .favicon => "favicon"

/-- Accepted static file reference (`staticFiles` entry). -/
structure RefItem where
  url : String
  type : String
deriving Repr, DecidableEq

/-- Skipped reference (`skippedFiles` entry). -/
structure SkippedItem where
  url : String
  type : String
  reason : String
deriving Repr, DecidableEq

/-- File type the catch-all `url()` scan infers from the extension of an
accepted reference. -/
def genericUrlType (url : String) : String :=
  let pathname := match parseURL url with
    | some uo => uo.pathname
    | none => "/"
  let ext := jsToLower (extnamePath pathname)
  if [".png", ".jpg", ".jpeg", ".gif", ".svg", ".webp"].contains ext then "image"
  else if ext = ".css" then "css"
  else if ext = ".js" then "js"
  else if [".woff", ".woff2", ".ttf", ".eot"].contains ext then "font"
  else "resource"

/-- Per-reference body of every scan loop in `StaticAnalyzer.analyzeHtml`:
resolve, route data URIs to the skip list, accept valid same-origin static
files, skip the rest as `external/cdn`. -/
def classifyRef (baseUrl v : String) (k : ScanKind) : Sum RefItem SkippedItem :=
  if jsStartsWith (resolveUrlJS baseUrl v) "data:" then
    .inr ⟨resolveUrlJS baseUrl v, scanKindLabel k, "base64 data URL"⟩
  else if isValidStaticFile baseUrl (resolveUrlJS baseUrl v) then
    .inl ⟨resolveUrlJS baseUrl v,
          match k with
          | .genericUrl => genericUrlType (resolveUrlJS baseUrl v)
          | _ => scanKindLabel k⟩
  else
    .inr ⟨resolveUrlJS baseUrl v, scanKindLabel k, "external/cdn"⟩

/-- Model of `StaticAnalyzer.analyzeHtml` on the list of raw references the
regex scans extract (the regex extraction itself is not modelled; `refs`
is its output, in scan order). -/
def analyzeHtml (refs : List (String × ScanKind)) (baseUrl : String) :
    List RefItem × List SkippedItem :=
  match refs with
  | [] => ([], [])
  | (v, k) :: rest =>
    let prev := analyzeHtml rest baseUrl
    match classifyRef baseUrl v k with
    | .inl r => (r :: prev.1, prev.2)
    | .inr s => (prev.1, s :: prev.2)

/-! ## `src/renderer/renderer.js` — clone worker -/

/-- Model of `normalizeDomain`: `undefined` for a falsy argument, else a
single leading dot is stripped. -/
def normalizeDomainOpt (domain : Option String) : Option String :=
  match domain with
  | none => none
  | some d =>
    if d = "" then none
    else some (if jsStartsWith d "." then ⟨d.toList.drop 1⟩ else d)

/-- Model of `mapSameSite`: falsy input maps to `Lax`; otherwise the
lower-cased value is searched for `strict`, then `none`, defaulting to
`Lax`. -/
def mapSameSite (value : Option String) : String :=
  match value with
  | none => "Lax"
  | some v =>
    if v = "" then "Lax"
    else
      let s := jsToLower v
      if jsIncludes s "strict" then "Strict"
      else if jsIncludes s "none" then "None"
      else "Lax"

/-- JS `a || b` on an optional string (empty string is falsy). -/
def jsOrString (a : Option String) (b : String) : String :=
  match a with
  | none => b
  | some s => if s = "" then b else s

/-- Cookie as read from the input cookie list.  `expirationDate` is a JS
number (epoch seconds, possibly fractional), modelled as a rational. -/
structure InputCookie where
  name : String
  value : String
  domain : Option String
  path : Option String
  httpOnly : Bool
  secure : Bool
  sameSite : Option String
  expirationDate : Option ℚ
deriving Repr, DecidableEq

/-- Cookie object handed to `page.setCookie`. -/
structure CookiePayload where
  name : String
  value : String
  domain : Option String
  path : String
  httpOnly : Bool
  secure : Bool
  sameSite : String
  expires : Option ℤ
deriving Repr, DecidableEq

/-- Model of the per-cookie mapping in the worker handler
(`cookies.map(cookie => ({...}))`).  `urlHostname` is
`new URL(url).hostname`.  Note `cookie.expirationDate ? ... : undefined`
tests JS truthiness, so an `expirationDate` of `0` yields no `expires`. -/
def buildCookiePayload (cookie : InputCookie) (urlHostname : String) :
    CookiePayload where
  name := cookie.name
  value := cookie.value
  domain := normalizeDomainOpt (some (jsOrString cookie.domain urlHostname))
  path := jsOrString cookie.path "/"
  httpOnly := cookie.httpOnly
  secure := cookie.secure
  sameSite := mapSameSite cookie.sameSite
  expires :=
    match cookie.expirationDate with
    | some q => if q = 0 then none else some ⌊q⌋
    | none => none

/-- Resource types routed to asset persistence. -/
def staticResourceTypes : List String :=
  ["stylesheet", "script", "image", "font", "document", "other"]

/-- Progress object attached to a `savedResource` message. -/
structure ProgressSnapshot where
  total : Nat
  processed : Nat
  downloaded : Nat
  skipped : Nat
  percentage : Nat
  currentFile : String
  currentFileProgress : Nat
deriving Repr, DecidableEq

/-- Messages the worker emits with `process.send({type: 'progress', ...})`
while handling responses. -/
inductive WorkerMsg where
  | skippedResource (url reason : String)
  | savedResource (url savePath status : String) (reason : Option String)
      (progress : ProgressSnapshot)
  | apiCaptured (url : String)
deriving Repr, DecidableEq

/-- Worker session state: the on-disk files under the output directory,
the `savedFiles` remote-to-local mapping, API logs, the three progress
counters and the emitted messages (most recent first). -/
structure WorkerState where
  fsFiles : List (String × List Nat)
  savedFiles : List (String × String)
  apiLogs : List String
  processedFiles : Nat
  downloadedFiles : Nat
  skippedFiles : Nat
  messages : List WorkerMsg
deriving Repr

/-- Session start: empty mapping, zeroed counters, no files written yet. -/
def initWorkerState : WorkerState := ⟨[], [], [], 0, 0, 0, []⟩

/-- One intercepted response: its request URL, resource type and body
bytes (`none` when `response.buffer()` rejected). -/
structure RespEvent where
  url : String
  resourceType : String
  buffer : Option (List Nat)
deriving Repr

/-- Model of node's `path.basename` on the URL string. -/
def basenameOf (p : String) : String :=
  ⟨lastSegAfterSlash ((p.toList.reverse.dropWhile (fun c => decide (c = '/'))).reverse)⟩

/-- Derived target pathname of a response: `url.parse(requestUrl).pathname`
defaulted to `/`, directory URLs get `index`, extensionless documents get
`.html` (lines 1996-2003 of the worker). -/
def derivePathname (url resourceType : String) : String :=
  let p0 := match parseURL url with
    | some u => if u.pathname = "" then "/" else u.pathname
    | none => "/"
  let p1 := if jsEndsWith p0 "/" then p0 ++ "index" else p0
  if resourceType = "document" ∧ jsIncludes p1 "." = false
      ∧ jsEndsWith p1 ".html" = false then
    p1 ++ ".html"
  else p1

/-- Strip one leading slash (`pathname.replace(/^\//, '')`). -/
def dropLeadingSlash (p : String) : String :=
  if jsStartsWith p "/" then ⟨p.toList.drop 1⟩ else p

/-- Model of `path.join(dir, rest)` for the already-normalized paths the
worker produces. -/
def joinPath (dir rest : String) : String := dir ++ "/" ++ rest

/-- Save path of a response under the assets directory (line 2005). -/
def saveTargetPath (assetsDir : String) (ev : RespEvent) : String :=
  joinPath assetsDir (dropLeadingSlash (derivePathname ev.url ev.resourceType))

/-- API-capture block of the response handler (lines 1954-1975): xhr and
fetch responses are appended to the API log and announced. -/
def apiCaptureStep (st : WorkerState) (ev : RespEvent) : WorkerState :=
  if ev.resourceType = "xhr" ∨ ev.resourceType = "fetch" then
    { st with apiLogs := ev.url :: st.apiLogs,
              messages := .apiCaptured ev.url :: st.messages }
  else st

/-- Asset-persistence block of the response handler (lines 1978-2057):
data-URI skip, empty-body skip, existence check, counter updates and one
progress message per outcome. -/
def assetPersistStep (assetsDir : String) (st1 : WorkerState) (ev : RespEvent) :
    WorkerState :=
  if staticResourceTypes.contains ev.resourceType then
    if jsStartsWith ev.url "data:" then
      { st1 with messages := .skippedResource ev.url "base64 data URL" :: st1.messages }
    else
      match ev.buffer with
      | none => st1
      | some b =>
        if b = [] then st1
        else
          let processed := st1.processedFiles + 1
          let savePath := saveTargetPath assetsDir ev
          match lookupA st1.fsFiles savePath with
          | some _ =>
            let skipped := st1.skippedFiles + 1
            { st1 with
              processedFiles := processed
              skippedFiles := skipped
              savedFiles := setA st1.savedFiles ev.url savePath
              messages := .savedResource ev.url savePath "skipped"
                  (some "File already exists")
                  ⟨processed, processed, st1.downloadedFiles, skipped, 100,
                   basenameOf ev.url, 100⟩ :: st1.messages }
          | none =>
            let downloaded := st1.downloadedFiles + 1
            { st1 with
              processedFiles := processed
              downloadedFiles := downloaded
              fsFiles := setA st1.fsFiles savePath b
              savedFiles := setA st1.savedFiles ev.url savePath
              messages := .savedResource ev.url savePath "downloaded" none
                  ⟨processed, processed, downloaded, st1.skippedFiles, 100,
                   basenameOf ev.url, 100⟩ :: st1.messages }
  else st1

/-- Model of the `page.on('response')` handler (lines 1946-2061): the API
capture block followed by the asset persistence block.  Response events
are applied one at a time to completion, as the claims assume. -/
def handleResponse (assetsDir : String) (st : WorkerState) (ev : RespEvent) :
    WorkerState :=
  assetPersistStep assetsDir (apiCaptureStep st ev) ev

/-- Replay a session's response events in arrival order. -/
def replayResponses (assetsDir : String) (evs : List RespEvent) : WorkerState :=
  evs.foldl (handleResponse assetsDir) initWorkerState

/-- Progress snapshot carried by a message, when it has one. -/
def progressOfMsg : WorkerMsg → Option ProgressSnapshot
  | .savedResource _ _ _ _ p => some p
  | _ => none

/-- All matches of the global regex `url\([^)]+\)` in a character list,
leftmost first, non-overlapping (used by the CSS repair fallbacks). -/
def matchAllUrl (cs : List Char) : List String :=
  match cs with
  | [] => []
  | c :: rest =>
    if isPrefixL "url(".toList (c :: rest) then
      let inner := ((c :: rest).drop 4).takeWhile (fun ch => decide (ch ≠ ')'))
      let after := ((c :: rest).drop 4).drop inner.length
      if inner ≠ [] ∧ after.head? = some ')' then
        ("url(" ++ (⟨inner⟩ : String) ++ ")") :: matchAllUrl (after.drop 1)
      else matchAllUrl rest
    else matchAllUrl rest
termination_by cs.length
decreasing_by
  · simp only [List.length_drop, List.length_cons]
    omega
  · simp only [List.length_cons]
    omega
  · simp only [List.length_cons]
    omega

/-- JS `s.substring(a, b)` with both ends clamped to the string. -/
def substringJS (s : String) (a b : Nat) : String :=
  ⟨(s.toList.drop a).take (b - a)⟩

/-- The corrupted-URL pattern the final safety check replaces
(`/url\(\[object Object\]\)/g`). -/
def corruptedPat : String := "url([object Object])"

/-- Replacement callback of the final safety check (lines 1779-1810):
recover a URL from the original stylesheet text, preferring font URLs in a
`@font-face` context.  The generic-fallback lines reference the
block-scoped `contextBefore` from outside its block, so reaching them
throws a `ReferenceError`, modelled as `Except.error`. -/
def corruptedFixCallback (cssText : String) (offset : Nat) :
    Except String String :=
  let urlMatches := matchAllUrl cssText.toList
  match urlMatches with
  | [] => .error "ReferenceError: contextBefore is not defined"
  | _ :: _ =>
    let contextBefore := substringJS cssText (offset - 100) offset
    let fontBranch :=
      if jsIncludes contextBefore "@font-face" || jsIncludes contextBefore "font-family" then
        urlMatches.find? (fun u =>
          jsIncludes u ".woff" || jsIncludes u ".ttf"
            || jsIncludes u ".otf" || jsIncludes u ".eot")
      else none
    match fontBranch with
    | some f => .ok f
    | none =>
      match urlMatches.find? (fun u => !(jsIncludes u "[object Object]")) with
      | some v => .ok v
      | none => .error "ReferenceError: contextBefore is not defined"

/-- Apply the replacement callback at every occurrence of `corruptedPat`,
threading the match offsets (`pos` is the offset of the part at the head
of `parts`). -/
def applyCorruptedFix (cssText : String) (patLen pos : Nat) :
    List (List Char) → Except String (List Char)
  | [] => .ok []
  | [p] => .ok p
  | p :: q :: ps => do
    let rep ← corruptedFixCallback cssText (pos + p.length)
    let rest ← applyCorruptedFix cssText patLen (pos + p.length + patLen) (q :: ps)
    .ok (p ++ rep.toList ++ rest)

/-- The final safety check on the postcss output (lines 1774-1811): when
the corrupted token is present, every exact `url([object Object])` match
is replaced through `corruptedFixCallback`; token occurrences in any other
shape are untouched. -/
def finalSafetyFix (cssText resultCss : String) : Except String String :=
  if jsIncludes resultCss "[object Object]" then
    (applyCorruptedFix cssText corruptedPat.length 0
        (splitOnL corruptedPat.toList resultCss.toList)).map (fun l => ⟨l⟩)
  else .ok resultCss

/-- Model of `path.relative(fromDir, toPath).split(path.sep).join('/')` for
a target below `fromDir`; climbing with `..` segments is not modelled (no
claim depends on it). -/
def relativePath (fromDir toPath : String) : String :=
  if jsStartsWith toPath (fromDir ++ "/") then ⟨toPath.toList.drop (fromDir.length + 1)⟩
  else toPath

/-- Replacement for one `url(<content>)` match of the manual CSS pass
(lines 1626-1650): corrupted content and data/absolute URLs are returned
unchanged; root- and dot-relative URLs are resolved against the page URL
and rewritten to a relative local path when the resolved URL is a key of
`savedFiles`.  A throwing `new URL` propagates out of the replace
(`Except.error`). -/
def cssUrlReplacer (savedFiles : List (String × String)) (baseUrl cssDir : String)
    (urlContent : String) : Except String String :=
  if jsIncludes urlContent "[object Object]" then
    .ok ("url(" ++ urlContent ++ ")")
  else if jsStartsWith urlContent "data:" || jsStartsWith urlContent "http://"
      || jsStartsWith urlContent "https://" then
    .ok ("url(" ++ urlContent ++ ")")
  else if jsStartsWith urlContent "/" || jsStartsWith urlContent "../"
      || jsStartsWith urlContent "./" then
    match resolveAgainst baseUrl urlContent with
    | none => .error "TypeError: Invalid URL"
    | some u =>
      let absoluteUrl := renderURL u
      match lookupA savedFiles absoluteUrl with
      | some localPath => .ok ("url(" ++ relativePath cssDir localPath ++ ")")
      | none => .ok ("url(" ++ urlContent ++ ")")
  else
    .ok ("url(" ++ urlContent ++ ")")

/-- A stylesheet text split at the matches of the global regex
`url\([^)]+\)`: `urlRef c` stands for a match `url(c)` (`c` nonempty,
without `)`), `text` for the stretches in between. -/
inductive CssChunk where
  | text (s : String)
  | urlRef (content : String)
deriving Repr, DecidableEq

/-- Reassemble the stylesheet text from its chunks. -/
def renderCss : List CssChunk → String
  | [] => ""
  | .text s :: rest => s ++ renderCss rest
  | .urlRef c :: rest => "url(" ++ c ++ ")" ++ renderCss rest

/-- The manual regex pass of `processCssFiles`: each `url(...)` match is
replaced by `cssUrlReplacer`'s result, left to right. -/
def manualCssPass (savedFiles : List (String × String)) (baseUrl cssDir : String) :
    List CssChunk → Except String String
  | [] => .ok ""
  | .text s :: rest => (manualCssPass savedFiles baseUrl cssDir rest).map (s ++ ·)
  | .urlRef c :: rest => do
    let r ← cssUrlReplacer savedFiles baseUrl cssDir c
    let t ← manualCssPass savedFiles baseUrl cssDir rest
    .ok (r ++ t)

/-- Model of one `processCssFiles` iteration's effect on the stylesheet
text on disk.  `pcss` stands for the external
`postcss([postcssUrl(...)]).process(cssText).css` fallback, which is not
part of this repository (on stylesheets without `url()` declarations it
returns its input unchanged).  Any thrown error is caught at the loop
level, leaving the file as read. -/
def processCssFileDisk (savedFiles : List (String × String)) (baseUrl cssDir : String)
    (pcss : String → String) (chunks : List CssChunk) : String :=
  let cssText := renderCss chunks
  let written : Except String String := do
    let processedCss ← manualCssPass savedFiles baseUrl cssDir chunks
    if jsIncludes processedCss "[object Object]" then
      let resultCss := pcss cssText
      finalSafetyFix cssText resultCss
    else
      .ok processedCss
  match written with
  | .ok s => s
  | .error _ => cssText

/-- Model of the HTML rewrite loop (lines 2103-2109): for each
`savedFiles` entry in insertion order, all occurrences of the remote URL
are replaced by the relative path via `split(remoteUrl).join(relativePath)`. -/
def rewriteHtml (htmlAssetsDir : String) (savedFiles : List (String × String))
    (pageHtml : String) : String :=
  savedFiles.foldl
    (fun h e => splitJoinStr h e.1 (relativePath htmlAssetsDir e.2)) pageHtml

/-! ## Claims -/

/-- C3 (amended): when the accumulated API score does not exceed the
accumulated static score — in particular on every tie — `classifyUrl`
returns type `static_file` whenever the static score is positive, and
`unknown` only when both scores are zero.  (The claim's `unknown`-on-tie
holds only for zero ties.) -/
theorem c3_tie_classification (cache : List (String × Classification))
    (url method : String) (u : URLRec) (hparse : parseURL url = some u)
    (hcache : lookupA cache (method ++ "-" ++ url) = none)
    (htie : (calculateApiScore (jsToLower u.pathname) u.search method).score =
      (calculateStaticScore (jsToLower u.pathname) url).score) :
    (classifyUrl cache url method).1.type =
      if (calculateStaticScore (jsToLower u.pathname) url).score > 0
      then "static_file" else "unknown" := by
  have hcl : (classifyUrl cache url method).1 =
      performClassification url (jsToLower u.pathname) u.search method := by
    simp only [classifyUrl, hcache, hparse]
  rw [hcl]
  unfold performClassification
  have hng : ¬ (calculateApiScore (jsToLower u.pathname) u.search method).score >
      (calculateStaticScore (jsToLower u.pathname) url).score := by
    omega
  rw [if_neg hng]
  by_cases hpos : (calculateStaticScore (jsToLower u.pathname) url).score > 0
  · rw [if_pos hpos, if_pos hpos]
  · rw [if_neg hpos, if_neg hpos]

/-- C3 (counterexample): `GET https://cdn.example.com/api/x` scores
0.8 vs 0.8 — a positive tie — and is classified `static_file`, not
`unknown` as the claim states. -/
theorem c3_positive_tie_counterexample :
    (calculateApiScore (jsToLower "/api/x") "" "GET").score =
      (calculateStaticScore (jsToLower "/api/x") "https://cdn.example.com/api/x").score
    ∧ (calculateStaticScore (jsToLower "/api/x") "https://cdn.example.com/api/x").score = 8
    ∧ (classifyUrl [] "https://cdn.example.com/api/x" "GET").1.type = "static_file"
    ∧ (classifyUrl [] "https://cdn.example.com/api/x" "GET").1.type ≠ "unknown" := by
  decide

/-- C3 (witness): the amended theorem applied to the concrete tie. -/
theorem c3_witness :
    (classifyUrl [] "https://cdn.example.com/api/x" "GET").1.type = "static_file" := by
  have h := c3_tie_classification [] "https://cdn.example.com/api/x" "GET"
    ⟨"https", "cdn.example.com", "/api/x", ""⟩ (by decide) rfl (by decide)
  exact h.trans (by decide)

/-- C4 (counterexample): for `POST https://x.com/api/v2/users/42` the
static-file score is 0.6 (the versioned-path pattern `/v2/` fires), not 0
as the claim states. -/
theorem c4_static_score_not_zero :
    (calculateStaticScore (jsToLower "/api/v2/users/42")
        "https://x.com/api/v2/users/42").score = 6
    ∧ (calculateStaticScore (jsToLower "/api/v2/users/42")
        "https://x.com/api/v2/users/42").score ≠ 0 := by
  decide

/-- C4 (amended): `POST https://x.com/api/v2/users/42` classifies as
`api_request` with API score 3.5 (the spec's 2.7 plus the additional
`/users/` pattern) against a static score of 0.6 (versioned-path pattern);
3.5 ≥ 2.7. -/
theorem c4_scenario3_classification :
    (classifyUrl [] "https://x.com/api/v2/users/42" "POST").1.type = "api_request"
    ∧ (classifyUrl [] "https://x.com/api/v2/users/42" "POST").1.confidence = 35
    ∧ (calculateApiScore (jsToLower "/api/v2/users/42") "" "POST").score = 35
    ∧ (calculateStaticScore (jsToLower "/api/v2/users/42")
        "https://x.com/api/v2/users/42").score = 6
    ∧ 35 ≥ 27 := by
  decide

/-- C6: `clearCache` never returns normally: on every reachable
`URLClassifier` instance (the constructor followed by any sequence of
`classifyUrl` calls) it throws a `TypeError`, because `this.processedUrls`
is never initialized anywhere in the class. -/
theorem c6_clearCache_throws (calls : List (String × String)) :
    clearCache (replayClassify URLClassifier.new calls) =
      .error "TypeError: this.processedUrls is undefined" := by
  have hinv : ∀ st : URLClassifierState, st.processedUrls = none →
      (replayClassify st calls).processedUrls = none := by
    induction calls with
    | nil => intro st h; exact h
    | cons c rest ih =>
      intro st h
      exact ih ((classifyUrlSt st c.1 c.2).2) h
  have h0 : (replayClassify URLClassifier.new calls).processedUrls = none :=
    hinv URLClassifier.new rfl
  unfold clearCache
  rw [h0]

/-- C7: an input string the URL constructor rejects never makes
`classifyUrl` throw (the model is total); the result has type `unknown`,
confidence 0 and reason `Invalid URL format`, and the cache is untouched.
The cache-miss hypothesis always holds in practice: entries are only ever
created for inputs that parsed. -/
theorem c7_invalid_url_classification (cache : List (String × Classification))
    (url method : String) (hparse : parseURL url = none)
    (hcache : lookupA cache (method ++ "-" ++ url) = none) :
    classifyUrl cache url method = (invalidClassification url method, cache)
    ∧ (classifyUrl cache url method).1.type = "unknown"
    ∧ (classifyUrl cache url method).1.confidence = 0
    ∧ (classifyUrl cache url method).1.reason = "Invalid URL format" := by
  have h : classifyUrl cache url method = (invalidClassification url method, cache) := by
    simp only [classifyUrl, hcache, hparse]
  refine ⟨h, ?_, ?_, ?_⟩ <;> rw [h] <;> rfl

/-- C7 (witness): the malformed input `not a url`. -/
theorem c7_witness :
    parseURL "not a url" = none
    ∧ (classifyUrl [] "not a url" "GET").1.type = "unknown"
    ∧ (classifyUrl [] "not a url" "GET").1.confidence = 0
    ∧ (classifyUrl [] "not a url" "GET").1.reason = "Invalid URL format" := by
  have h := c7_invalid_url_classification [] "not a url" "GET" (by decide) rfl
  exact ⟨by decide, h.2.1, h.2.2.1, h.2.2.2⟩

/-- Expansion of `mapSameSite` on a present value. -/
theorem mapSameSite_some (v : String) :
    mapSameSite (some v) =
      if v = "" then "Lax"
      else if jsIncludes (jsToLower v) "strict" then "Strict"
      else if jsIncludes (jsToLower v) "none" then "None"
      else "Lax" := rfl

/-- C8 (amended): each cookie handed to `page.setCookie` has a single
leading dot stripped from its domain; a sameSite of `Strict`/`None`/`Lax`
by the stated containment tests with `Lax` for a missing value; and an
`expires` equal to the floor of `expirationDate` when that field is
present and non-zero — a present-but-zero `expirationDate` is falsy in the
source's conditional and produces no `expires` value. -/
theorem c8_cookie_payload_spec (c : InputCookie) (host : String) :
    (∀ d, c.domain = some d → d ≠ "" → jsStartsWith d "." = true →
      (buildCookiePayload c host).domain = some ⟨d.toList.drop 1⟩)
    ∧ (∀ d, c.domain = some d → d ≠ "" → jsStartsWith d "." = false →
      (buildCookiePayload c host).domain = some d)
    ∧ (∀ v, c.sameSite = some v → jsIncludes (jsToLower v) "strict" = true →
      (buildCookiePayload c host).sameSite = "Strict")
    ∧ (∀ v, c.sameSite = some v → jsIncludes (jsToLower v) "strict" = false →
      jsIncludes (jsToLower v) "none" = true →
      (buildCookiePayload c host).sameSite = "None")
    ∧ (∀ v, c.sameSite = some v → jsIncludes (jsToLower v) "strict" = false →
      jsIncludes (jsToLower v) "none" = false →
      (buildCookiePayload c host).sameSite = "Lax")
    ∧ (c.sameSite = none → (buildCookiePayload c host).sameSite = "Lax")
    ∧ (∀ q, c.expirationDate = some q → q ≠ 0 →
      (buildCookiePayload c host).expires = some ⌊q⌋)
    ∧ ((c.expirationDate = none ∨ c.expirationDate = some 0) →
      (buildCookiePayload c host).expires = none) := by
  refine ⟨?_, ?_, ?_, ?_, ?_, ?_, ?_, ?_⟩
  · intro d hd hne hdot
    show normalizeDomainOpt (some (jsOrString c.domain host)) = _
    rw [hd]
    have hor : jsOrString (some d) host = d := by simp [jsOrString, hne]
    rw [hor]
    simp [normalizeDomainOpt, hne, hdot]
  · intro d hd hne hdot
    show normalizeDomainOpt (some (jsOrString c.domain host)) = _
    rw [hd]
    have hor : jsOrString (some d) host = d := by simp [jsOrString, hne]
    rw [hor]
    simp [normalizeDomainOpt, hne, hdot]
  · intro v hv hstr
    show mapSameSite c.sameSite = _
    rw [hv, mapSameSite_some]
    have hne : ¬ v = "" := by
      intro hveq
      subst hveq
      exact absurd hstr (by decide)
    rw [if_neg hne, if_pos hstr]
  · intro v hv hstr hnone
    show mapSameSite c.sameSite = _
    rw [hv, mapSameSite_some]
    have hne : ¬ v = "" := by
      intro hveq
      subst hveq
      exact absurd hnone (by decide)
    rw [if_neg hne, if_neg (by simp [hstr]), if_pos hnone]
  · intro v hv hstr hnone
    show mapSameSite c.sameSite = _
    rw [hv, mapSameSite_some]
    by_cases hne : v = ""
    · rw [if_pos hne]
    · rw [if_neg hne, if_neg (by simp [hstr]), if_neg (by simp [hnone])]
  · intro hv
    show mapSameSite c.sameSite = _
    rw [hv]
    rfl
  · intro q hq hnz
    show (match c.expirationDate with
          | some q => if q = 0 then none else some ⌊q⌋
          | none => none) = _
    rw [hq]
    simp [hnz]
  · intro hq
    show (match c.expirationDate with
          | some q => if q = 0 then none else some ⌊q⌋
          | none => none) = _
    rcases hq with h | h <;> rw [h] <;> simp

/-- Cookie whose `expirationDate` is present but zero. -/
def zeroExpiryCookie : InputCookie :=
  ⟨"sid", "v", some ".a.com", some "/", false, false, some "strict", some 0⟩

/-- C8 (counterexample): for a cookie whose `expirationDate` is present
and equal to 0, the payload carries no `expires` value, although the claim
requires `expires = floor 0 = 0`. -/
theorem c8_zero_expiry_counterexample :
    zeroExpiryCookie.expirationDate = some (0 : ℚ)
    ∧ (buildCookiePayload zeroExpiryCookie "a.com").expires = none
    ∧ (none : Option ℤ) ≠ some ⌊(0 : ℚ)⌋ := by
  refine ⟨rfl, rfl, by simp⟩

/-- Cookie exercising the dot-strip, Strict mapping and flooring. -/
def strictCookie : InputCookie :=
  ⟨"n", "v", some ".a.com", none, true, true, some "STRICT", some (7 / 2 : ℚ)⟩

/-- C8 (witness): the amended theorem at a concrete cookie. -/
theorem c8_witness :
    (buildCookiePayload strictCookie "a.com").domain = some "a.com"
    ∧ (buildCookiePayload strictCookie "a.com").sameSite = "Strict"
    ∧ (buildCookiePayload strictCookie "a.com").expires = some 3 := by
  obtain ⟨h1, _, h3, _, _, _, h7, _⟩ := c8_cookie_payload_spec strictCookie "a.com"
  refine ⟨?_, ?_, ?_⟩
  · exact (h1 ".a.com" rfl (by decide) (by decide)).trans (by decide)
  · exact h3 "STRICT" rfl (by decide)
  · have hf : (buildCookiePayload strictCookie "a.com").expires = some ⌊(7 / 2 : ℚ)⌋ :=
      h7 (7 / 2) rfl (by norm_num)
    rw [hf]
    norm_num

/-- C9: assuming response events are handled one at a time to completion
(the fold), the session counters always satisfy
`processed = downloaded + skipped`, and so does every progress snapshot
ever emitted.  (All counters are naturals in the model, as in the source
they are only ever incremented from 0, so non-negativity is structural.) -/
theorem c9_progress_consistency (assetsDir : String) (evs : List RespEvent) :
    (replayResponses assetsDir evs).processedFiles =
      (replayResponses assetsDir evs).downloadedFiles +
        (replayResponses assetsDir evs).skippedFiles
    ∧ ∀ m ∈ (replayResponses assetsDir evs).messages, ∀ snap,
        progressOfMsg m = some snap →
          snap.processed = snap.downloaded + snap.skipped := by
  have stepA : ∀ (st : WorkerState) (ev : RespEvent),
      (st.processedFiles = st.downloadedFiles + st.skippedFiles
        ∧ ∀ m ∈ st.messages, ∀ snap, progressOfMsg m = some snap →
            snap.processed = snap.downloaded + snap.skipped) →
      ((apiCaptureStep st ev).processedFiles =
          (apiCaptureStep st ev).downloadedFiles + (apiCaptureStep st ev).skippedFiles
        ∧ ∀ m ∈ (apiCaptureStep st ev).messages, ∀ snap, progressOfMsg m = some snap →
            snap.processed = snap.downloaded + snap.skipped) := by
    intro st ev h
    obtain ⟨hc, hm⟩ := h
    unfold apiCaptureStep
    split
    · refine ⟨hc, ?_⟩
      intro m hmem snap hsnap
      rcases List.mem_cons.mp hmem with h1 | h1
      · subst h1; simp [progressOfMsg] at hsnap
      · exact hm m h1 snap hsnap
    · exact ⟨hc, hm⟩
  have stepB : ∀ (st : WorkerState) (ev : RespEvent),
      (st.processedFiles = st.downloadedFiles + st.skippedFiles
        ∧ ∀ m ∈ st.messages, ∀ snap, progressOfMsg m = some snap →
            snap.processed = snap.downloaded + snap.skipped) →
      ((assetPersistStep assetsDir st ev).processedFiles =
          (assetPersistStep assetsDir st ev).downloadedFiles +
            (assetPersistStep assetsDir st ev).skippedFiles
        ∧ ∀ m ∈ (assetPersistStep assetsDir st ev).messages, ∀ snap,
            progressOfMsg m = some snap →
              snap.processed = snap.downloaded + snap.skipped) := by
    intro st ev h
    obtain ⟨hc, hm⟩ := h
    unfold assetPersistStep
    split
    · split
      · refine ⟨hc, ?_⟩
        intro m hmem snap hsnap
        rcases List.mem_cons.mp hmem with h1 | h1
        · subst h1; simp [progressOfMsg] at hsnap
        · exact hm m h1 snap hsnap
      · split
        · exact ⟨hc, hm⟩
        · split
          · exact ⟨hc, hm⟩
          · dsimp only
            split
            · refine ⟨by simp; omega, ?_⟩
              intro m hmem snap hsnap
              rcases List.mem_cons.mp hmem with h1 | h1
              · subst h1
                simp only [progressOfMsg, Option.some.injEq] at hsnap
                subst hsnap
                simp
                omega
              · exact hm m h1 snap hsnap
            · refine ⟨by simp; omega, ?_⟩
              intro m hmem snap hsnap
              rcases List.mem_cons.mp hmem with h1 | h1
              · subst h1
                simp only [progressOfMsg, Option.some.injEq] at hsnap
                subst hsnap
                simp
                omega
              · exact hm m h1 snap hsnap
    · exact ⟨hc, hm⟩
  have hfold : ∀ (l : List RespEvent) (st : WorkerState),
      (st.processedFiles = st.downloadedFiles + st.skippedFiles
        ∧ ∀ m ∈ st.messages, ∀ snap, progressOfMsg m = some snap →
            snap.processed = snap.downloaded + snap.skipped) →
      ((l.foldl (handleResponse assetsDir) st).processedFiles =
          (l.foldl (handleResponse assetsDir) st).downloadedFiles +
            (l.foldl (handleResponse assetsDir) st).skippedFiles
        ∧ ∀ m ∈ (l.foldl (handleResponse assetsDir) st).messages, ∀ snap,
            progressOfMsg m = some snap →
              snap.processed = snap.downloaded + snap.skipped) := by
    intro l
    induction l with
    | nil => intro st h; exact h
    | cons e rest ih =>
      intro st h
      exact ih _ (stepB (apiCaptureStep st e) e (stepA st e h))
  exact hfold evs initWorkerState ⟨rfl, by intro m hmem; simp [initWorkerState] at hmem⟩

/-- A static resource type is never xhr or fetch. -/
theorem static_not_api (r : String) (h : staticResourceTypes.contains r = true) :
    ¬ (r = "xhr" ∨ r = "fetch") := by
  intro hor
  rcases hor with h1 | h1 <;> subst h1 <;> exact absurd h (by decide)

/-- C5: asset persistence writes each derived local path at most once per
session.  (1) A path already on disk is never overwritten by any later
response.  (2) Re-handling a URL whose derived path exists emits one
`skipped` / `File already exists` message, re-records the remote-to-local
mapping, and leaves the file system untouched.  (3) Handling a URL whose
derived path is fresh writes exactly the response's bytes there. -/
theorem c5_persist_once (assetsDir : String) (st : WorkerState) (ev : RespEvent) :
    (∀ p b, lookupA st.fsFiles p = some b →
      lookupA (handleResponse assetsDir st ev).fsFiles p = some b)
    ∧ (∀ bs, staticResourceTypes.contains ev.resourceType = true →
        jsStartsWith ev.url "data:" = false →
        ev.buffer = some bs → bs ≠ [] →
        ∀ b0, lookupA st.fsFiles (saveTargetPath assetsDir ev) = some b0 →
        (handleResponse assetsDir st ev).messages =
          WorkerMsg.savedResource ev.url (saveTargetPath assetsDir ev) "skipped"
            (some "File already exists")
            ⟨st.processedFiles + 1, st.processedFiles + 1, st.downloadedFiles,
             st.skippedFiles + 1, 100, basenameOf ev.url, 100⟩ :: st.messages
        ∧ lookupA (handleResponse assetsDir st ev).savedFiles ev.url =
            some (saveTargetPath assetsDir ev)
        ∧ (handleResponse assetsDir st ev).fsFiles = st.fsFiles)
    ∧ (∀ bs, staticResourceTypes.contains ev.resourceType = true →
        jsStartsWith ev.url "data:" = false →
        ev.buffer = some bs → bs ≠ [] →
        lookupA st.fsFiles (saveTargetPath assetsDir ev) = none →
        lookupA (handleResponse assetsDir st ev).fsFiles
          (saveTargetPath assetsDir ev) = some bs) := by
  refine ⟨?_, ?_, ?_⟩
  · intro p b hpb
    unfold handleResponse
    have hA : (apiCaptureStep st ev).fsFiles = st.fsFiles := by
      unfold apiCaptureStep; split <;> rfl
    unfold assetPersistStep
    split
    · split
      · rw [hA]; exact hpb
      · split
        · rw [hA]; exact hpb
        · split
          · rw [hA]; exact hpb
          · dsimp only
            split
            · rw [hA]; exact hpb
            · rename_i b2 hb2 hlk
              show lookupA (setA (apiCaptureStep st ev).fsFiles
                (saveTargetPath assetsDir ev) _) p = some b
              rw [hA] at hlk ⊢
              have hne : saveTargetPath assetsDir ev ≠ p := by
                intro hEq
                rw [hEq, hpb] at hlk
                exact Option.noConfusion hlk
              show (if saveTargetPath assetsDir ev = p then _ else lookupA st.fsFiles p)
                  = some b
              rw [if_neg hne]
              exact hpb
    · rw [hA]; exact hpb
  · intro bs hstat hdata hbuf hne b0 hlk
    have hA : apiCaptureStep st ev = st := by
      unfold apiCaptureStep
      rw [if_neg (static_not_api ev.resourceType hstat)]
    unfold handleResponse assetPersistStep
    rw [hA, hstat, hdata, hbuf]
    simp only [if_pos rfl]
    rw [if_neg hne]
    rw [hlk]
    refine ⟨rfl, ?_, rfl⟩
    show (if ev.url = ev.url then some (saveTargetPath assetsDir ev)
          else lookupA st.savedFiles ev.url) = some (saveTargetPath assetsDir ev)
    rw [if_pos rfl]
  · intro bs hstat hdata hbuf hne hlk
    have hA : apiCaptureStep st ev = st := by
      unfold apiCaptureStep
      rw [if_neg (static_not_api ev.resourceType hstat)]
    unfold handleResponse assetPersistStep
    rw [hA, hstat, hdata, hbuf]
    simp only [if_pos rfl]
    rw [if_neg hne]
    rw [hlk]
    show (if saveTargetPath assetsDir ev = saveTargetPath assetsDir ev then some bs
          else lookupA st.fsFiles (saveTargetPath assetsDir ev)) = some bs
    rw [if_pos rfl]

/-- First response for an image asset (body bytes `[1,2,3]`). -/
def c5FirstEvent : RespEvent := ⟨"https://a.com/img.png", "image", some [1, 2, 3]⟩

/-- Second response for the same URL with different bytes. -/
def c5SecondEvent : RespEvent := ⟨"https://a.com/img.png", "image", some [9, 9]⟩

/-- C5 (witness): the same URL handled twice with differing payloads —
the first write sticks, the second handling leaves the disk unchanged. -/
theorem c5_witness :
    lookupA (handleResponse "/out/assets" initWorkerState c5FirstEvent).fsFiles
        (saveTargetPath "/out/assets" c5FirstEvent) = some [1, 2, 3]
    ∧ (handleResponse "/out/assets"
          (handleResponse "/out/assets" initWorkerState c5FirstEvent)
          c5SecondEvent).fsFiles
        = (handleResponse "/out/assets" initWorkerState c5FirstEvent).fsFiles := by
  constructor
  · exact (c5_persist_once "/out/assets" initWorkerState c5FirstEvent).2.2
      [1, 2, 3] (by decide) (by decide) rfl (by decide) (by decide)
  · exact ((c5_persist_once "/out/assets"
        (handleResponse "/out/assets" initWorkerState c5FirstEvent)
        c5SecondEvent).2.1 [9, 9] (by decide) (by decide) rfl (by decide)
        [1, 2, 3] (by decide)).2.2

/-- Strings with the `data:` prefix always parse in the URL model. -/
theorem parseURL_isSome_of_data (s : String) (h : jsStartsWith s "data:" = true) :
    (parseURL s).isSome := by
  unfold parseURL
  rw [if_pos h]
  rfl

/-- A URL the constructor rejects is never a valid static file. -/
theorem isValidStaticFile_false_of_parse_none (b u : String)
    (h : parseURL u = none) : isValidStaticFile b u = false := by
  unfold isValidStaticFile
  rw [h]

/-- A reference resolving to an unparseable URL is skipped as external/cdn. -/
theorem classifyRef_unresolvable (baseUrl v : String) (k : ScanKind)
    (hfail : parseURL (resolveUrlJS baseUrl v) = none) :
    classifyRef baseUrl v k =
      .inr ⟨resolveUrlJS baseUrl v, scanKindLabel k, "external/cdn"⟩ := by
  have hdata : jsStartsWith (resolveUrlJS baseUrl v) "data:" = false := by
    cases hb : jsStartsWith (resolveUrlJS baseUrl v) "data:" with
    | false => rfl
    | true =>
      have hs := parseURL_isSome_of_data _ hb
      rw [hfail] at hs
      exact absurd hs (by simp)
  unfold classifyRef
  simp [hdata, isValidStaticFile_false_of_parse_none baseUrl _ hfail]

/-- Unfolding of `analyzeHtml` on a cons cell. -/
theorem analyzeHtml_cons (v : String) (k : ScanKind)
    (rest : List (String × ScanKind)) (baseUrl : String) :
    analyzeHtml ((v, k) :: rest) baseUrl =
      match classifyRef baseUrl v k with
      | .inl r => (r :: (analyzeHtml rest baseUrl).1, (analyzeHtml rest baseUrl).2)
      | .inr s => ((analyzeHtml rest baseUrl).1, s :: (analyzeHtml rest baseUrl).2) := by
  cases hcl : classifyRef baseUrl v k <;> simp [analyzeHtml, hcl]

/-- An accepted reference passed `isValidStaticFile`. -/
theorem classifyRef_inl_valid (baseUrl v : String) (k : ScanKind) (r : RefItem)
    (h : classifyRef baseUrl v k = .inl r) :
    isValidStaticFile baseUrl r.url = true := by
  unfold classifyRef at h
  by_cases hd : jsStartsWith (resolveUrlJS baseUrl v) "data:" = true
  · rw [if_pos hd] at h
    exact Sum.noConfusion h
  · rw [if_neg hd] at h
    by_cases hv : isValidStaticFile baseUrl (resolveUrlJS baseUrl v) = true
    · rw [if_pos hv] at h
      injection h with h1
      subst h1
      exact hv
    · rw [if_neg hv] at h
      exact Sum.noConfusion h

/-- A valid static file has a parseable URL. -/
theorem parse_isSome_of_valid (b u : String) (h : isValidStaticFile b u = true) :
    (parseURL u).isSome := by
  unfold isValidStaticFile at h
  cases hp : parseURL u with
  | none => rw [hp] at h; exact absurd h (by simp)
  | some _ => rfl

/-- Every accepted `staticFiles` entry has a parseable URL. -/
theorem analyzeHtml_accepted_parseable (refs : List (String × ScanKind))
    (baseUrl : String) :
    ∀ r ∈ (analyzeHtml refs baseUrl).1, (parseURL r.url).isSome := by
  induction refs with
  | nil => intro r hr; simp [analyzeHtml] at hr
  | cons hd rest ih =>
    obtain ⟨v, k⟩ := hd
    intro r hr
    rw [analyzeHtml_cons] at hr
    cases hcl : classifyRef baseUrl v k with
    | inl r0 =>
      rw [hcl] at hr
      rcases List.mem_cons.mp hr with h1 | h1
      · subst h1
        exact parse_isSome_of_valid baseUrl r.url
          (classifyRef_inl_valid baseUrl v k r hcl)
      · exact ih r h1
    | inr s0 =>
      rw [hcl] at hr
      exact ih r hr

/-- A skipped classification of a listed reference lands in `skippedFiles`. -/
theorem analyzeHtml_skipped_mem (refs : List (String × ScanKind))
    (baseUrl v : String) (k : ScanKind) (s : SkippedItem)
    (hmem : (v, k) ∈ refs)
    (hcl : classifyRef baseUrl v k = .inr s) :
    s ∈ (analyzeHtml refs baseUrl).2 := by
  induction refs with
  | nil => simp at hmem
  | cons hd rest ih =>
    obtain ⟨v0, k0⟩ := hd
    rw [analyzeHtml_cons]
    rcases List.mem_cons.mp hmem with h1 | h1
    · obtain ⟨rfl, rfl⟩ : v = v0 ∧ k = k0 := by
        rw [Prod.mk.injEq] at h1
        exact h1
      rw [hcl]
      exact List.mem_cons_self s _
    · have hs := ih h1
      cases hcl0 : classifyRef baseUrl v0 k0 with
      | inl r0 => exact hs
      | inr s0 => exact List.mem_cons_of_mem s0 hs

/-- C10: an extracted reference whose value cannot be resolved to a
parseable absolute URL is classified without any exception (the model is
total), never enters `staticFiles`, and is recorded in `skippedFiles` with
reason `external/cdn`. -/
theorem c10_unresolvable_skipped (refs : List (String × ScanKind))
    (baseUrl v : String) (k : ScanKind)
    (hmem : (v, k) ∈ refs)
    (hfail : parseURL (resolveUrlJS baseUrl v) = none) :
    classifyRef baseUrl v k =
      .inr ⟨resolveUrlJS baseUrl v, scanKindLabel k, "external/cdn"⟩
    ∧ (⟨resolveUrlJS baseUrl v, scanKindLabel k, "external/cdn"⟩ : SkippedItem)
        ∈ (analyzeHtml refs baseUrl).2
    ∧ ∀ r ∈ (analyzeHtml refs baseUrl).1, r.url ≠ resolveUrlJS baseUrl v := by
  have hcl := classifyRef_unresolvable baseUrl v k hfail
  refine ⟨hcl, analyzeHtml_skipped_mem refs baseUrl v k _ hmem hcl, ?_⟩
  intro r hr hEq
  have hpar := analyzeHtml_accepted_parseable refs baseUrl r hr
  rw [hEq, hfail] at hpar
  exact absurd hpar (by simp)

/-- C10 (witness): the protocol-relative reference `//bad host/x.png`
(space in host) cannot be resolved against `https://x.com/page`. -/
theorem c10_witness :
    classifyRef "https://x.com/page" "//bad host/x.png" ScanKind.image =
      .inr ⟨"//bad host/x.png", "image", "external/cdn"⟩
    ∧ (⟨"//bad host/x.png", "image", "external/cdn"⟩ : SkippedItem)
        ∈ (analyzeHtml [("//bad host/x.png", ScanKind.image)] "https://x.com/page").2 := by
  have h := c10_unresolvable_skipped [("//bad host/x.png", ScanKind.image)]
    "https://x.com/page" "//bad host/x.png" ScanKind.image
    (List.mem_singleton.mpr rfl) (by decide)
  have e : (⟨resolveUrlJS "https://x.com/page" "//bad host/x.png",
      scanKindLabel ScanKind.image, "external/cdn"⟩ : SkippedItem) =
      ⟨"//bad host/x.png", "image", "external/cdn"⟩ := by decide
  exact ⟨h.1.trans (by decide), e ▸ h.2.1⟩

/-- Session mapping with one remote URL. -/
def cssSavedFilesExample : List (String × String) :=
  [("https://a.com/img.png", "/out/assets/img.png")]

/-- Captured stylesheet referencing that remote URL absolutely. -/
def cssChunksExample : List CssChunk :=
  [.text "body\x7bbackground:", .urlRef "https://a.com/img.png", .text "\x7d"]

/-- C1 (counterexample): a captured CSS file whose `url()` reference is the
absolute remote URL `https://a.com/img.png` — a key of the remote→local
mapping — is written back still containing that URL: the manual pass
returns absolute `http(s)` references unchanged. -/
theorem c1_absolute_css_url_survives :
    lookupA cssSavedFilesExample "https://a.com/img.png" = some "/out/assets/img.png"
    ∧ jsIncludes
        (processCssFileDisk cssSavedFilesExample "https://a.com/" "/out/assets"
          id cssChunksExample)
        "https://a.com/img.png" = true := by
  exact ⟨rfl, by decide⟩

/-- C1 (amended): the HTML pass replaces, per mapping entry in sequence,
exactly the occurrences of the remote URL present at that step — splitting
at the URL loses nothing (rejoining with the separator reconstructs the
text) and no split part retains an occurrence; the CSS pass, however,
rewrites only `url()` references, and returns any `data:`, `http://` or
`https://` reference unchanged, so a captured CSS file may retain mapped
remote URLs. -/
theorem c1_rewrite_semantics :
    (∀ u s : List Char, u ≠ [] → joinWithL u (splitOnL u s) = s)
    ∧ (∀ u s : List Char, u ≠ [] → ∀ p ∈ splitOnL u s, containsSubL p u = false)
    ∧ (∀ (savedFiles : List (String × String)) (baseUrl cssDir c : String),
        (jsStartsWith c "data:" || jsStartsWith c "http://"
          || jsStartsWith c "https://") = true →
        jsIncludes c "[object Object]" = false →
        cssUrlReplacer savedFiles baseUrl cssDir c = .ok ("url(" ++ c ++ ")")) := by
  refine ⟨fun u s hu => joinWith_splitOn u hu s,
    fun u s hu => splitOn_parts_free u hu s, ?_⟩
  intro savedFiles baseUrl cssDir c habs hcorr
  unfold cssUrlReplacer
  rw [if_neg (by rw [hcorr]; exact Bool.false_ne_true), if_pos habs]

/-- C1 (witness): the amended theorem at concrete inputs. -/
theorem c1_witness :
    joinWithL "x-".toList (splitOnL "x-".toList "ax-bx-c".toList) = "ax-bx-c".toList
    ∧ (∀ p ∈ splitOnL "ab".toList "zabz".toList, containsSubL p "ab".toList = false)
    ∧ cssUrlReplacer [] "https://a.com/" "/out" "https://a.com/a.png" =
        .ok ("url(" ++ "https://a.com/a.png" ++ ")") := by
  refine ⟨c1_rewrite_semantics.1 "x-".toList "ax-bx-c".toList (by decide),
    c1_rewrite_semantics.2.1 "ab".toList "zabz".toList (by decide),
    c1_rewrite_semantics.2.2 [] "https://a.com/" "/out" "https://a.com/a.png"
      (by decide) (by decide)⟩

/-- Splitting on a separator that does not occur returns the whole string. -/
theorem splitOnL_single_of_not_contains (u : List Char) (hu : u ≠ []) :
    ∀ s, containsSubL s u = false → splitOnL u s = [s] := by
  intro s
  induction s using splitOnL.induct u with
  | case1 s h => exact absurd h hu
  | case2 h =>
    intro hc
    rw [splitOnL_nil_right u h]
  | case3 h c t hp ih =>
    intro hc
    exfalso
    have hcons : containsSubL (c :: t) u = (isPrefixL u (c :: t) || containsSubL t u) := rfl
    rw [hcons, hp] at hc
    simp at hc
  | case4 h c t hp heq =>
    exact absurd heq (splitOnL_ne_nil u t)
  | case5 h c t hp p ps heq ih =>
    intro hc
    have hcons : containsSubL (c :: t) u = (isPrefixL u (c :: t) || containsSubL t u) := rfl
    rw [hcons] at hc
    have hsub : containsSubL t u = false := (Bool.or_eq_false_iff.mp hc).2
    have ht := ih hsub
    rw [heq] at ht
    injection ht with h1 h2
    rw [splitOnL_cons_neg u c t h hp, heq, h1, h2]

/-- Stylesheet whose only corrupted token sits outside any `url()` match. -/
def c2Chunks : List CssChunk := [.text "/* [object Object] */"]

/-- C2: a captured stylesheet containing `[object Object]` in any shape
other than the exact `url([object Object])` pattern is written back to
disk still containing the token — the manual pass keeps corrupted matches,
and the final safety check only replaces the exact pattern.  (`pcss` is
`id`: postcss leaves a stylesheet without `url()` declarations unchanged.) -/
theorem c2_corrupted_token_survives :
    jsIncludes
      (processCssFileDisk [] "https://a.com/" "/out/assets" id c2Chunks)
      "[object Object]" = true := by
  have hmanual : manualCssPass [] "https://a.com/" "/out/assets" c2Chunks =
      .ok "/* [object Object] */" := by rfl
  have hrender : renderCss c2Chunks = "/* [object Object] */" := by decide
  have hsplit : splitOnL corruptedPat.toList "/* [object Object] */".toList =
      ["/* [object Object] */".toList] :=
    splitOnL_single_of_not_contains corruptedPat.toList (by decide) _ (by decide)
  have hfix : finalSafetyFix "/* [object Object] */" "/* [object Object] */" =
      .ok "/* [object Object] */" := by
    unfold finalSafetyFix
    rw [if_pos (by decide), hsplit]
    rfl
  have hwhole : processCssFileDisk [] "https://a.com/" "/out/assets" id c2Chunks =
      "/* [object Object] */" := by
    unfold processCssFileDisk
    simp only [hrender, hmanual]
    simp only [bind, Except.bind]
    rw [if_pos (by decide)]
    simp only [id_eq]
    rw [hfix]
  rw [hwhole]
  decide

/-- Script response used twice in one session. -/
def c9Event : RespEvent := ⟨"https://b.com/app.js", "script", some [4]⟩

/-- C9 (witness): the invariant at a two-event session, including the
snapshot of the emitted skip message. -/
theorem c9_witness :
    (replayResponses "/x" [c9Event, c9Event]).processedFiles =
      (replayResponses "/x" [c9Event, c9Event]).downloadedFiles +
        (replayResponses "/x" [c9Event, c9Event]).skippedFiles
    ∧ (2 : Nat) = 1 + 1 := by
  refine ⟨(c9_progress_consistency "/x" [c9Event, c9Event]).1, ?_⟩
  have h := (c9_progress_consistency "/x" [c9Event, c9Event]).2
    (WorkerMsg.savedResource "https://b.com/app.js" "/x/app.js" "skipped"
      (some "File already exists") ⟨2, 2, 1, 1, 100, "app.js", 100⟩)
    (by decide) ⟨2, 2, 1, 1, 100, "app.js", 100⟩ rfl
  simpa using h
